import Mathlib

/-!
Verification of `src/DeepLabCut/convert.py`: a batch converter that scans a
directory tree for DeepLabCut output HDF5 files and converts each one to a
target tabular format (currently CSV).

The embedding models:
* Python `pathlib.Path` file names as `FsPath` (parent directory components
  plus a final name), with `stem` / `suffix` following CPython semantics;
* the Python substring operator `needle in hay` as `pyIn`;
* the filesystem as an explicit `FsState` (existing directories, file
  contents, and injectable exception points for `mkdir` and file writes);
* exceptions as `Except String`, with the scope of the `try:` block of
  `convert` reproduced exactly;
* the external table loader (`pandas.read_hdf`) as a parameter `parse`
  applied to the stored file contents.
-/

namespace DLCConvert

set_option autoImplicit false

/-! ### Python string and path primitives -/

/-- `listStartsWith a b` is true when `a` is an initial segment of `b`. -/
def listStartsWith : List Char → List Char → Bool
  | [], _ => true
  | _ :: _, [] => false
  | a :: as, b :: bs => a == b && listStartsWith as bs

/-- `listIn needle hay`: Python `needle in hay` on character lists. -/
def listIn (needle : List Char) : List Char → Bool
  | [] => needle.isEmpty
  | c :: rest => listStartsWith needle (c :: rest) || listIn needle rest

/-- Python `needle in hay` for strings. -/
def pyIn (needle hay : String) : Bool :=
  listIn needle.data hay.data

/-- Index of the last occurrence of `c` in `cs` (Python `str.rfind`),
`none` when absent. -/
def rfindChar (c : Char) : List Char → Option Nat
  | [] => none
  | a :: t =>
    match rfindChar c t with
    | some j => some (j + 1)
    | none => if a == c then some 0 else none

/-- CPython `PurePath.suffix` of a file name: the part of the name from the
last dot on, provided the last dot is neither the first nor the last
character; otherwise the empty string. -/
def pySuffix (name : String) : String :=
  match rfindChar '.' name.data with
  | some i =>
    if 0 < i ∧ i + 1 < name.data.length then String.mk (name.data.drop i)
    else ""
  | none => ""

/-- CPython `PurePath.stem` of a file name: the name up to (excluding) the
last dot, under the same proviso as `pySuffix`; otherwise the whole name. -/
def pyStem (name : String) : String :=
  match rfindChar '.' name.data with
  | some i =>
    if 0 < i ∧ i + 1 < name.data.length then String.mk (name.data.take i)
    else name
  | none => name

/-- A file path: the components of the parent directory, and the final
component (the file name). Models `pathlib.Path` at the granularity the
converter uses. -/
structure FsPath where
  dirs : List String
  name : String
  deriving DecidableEq, Repr

/-- `Path.suffix`. -/
def FsPath.suffix (p : FsPath) : String := pySuffix p.name

/-- `Path.stem`. -/
def FsPath.stem (p : FsPath) : String := pyStem p.name

/-- `Path.with_name`: same parent directory, replaced final component. -/
def FsPath.withName (p : FsPath) (n : String) : FsPath :=
  { p with name := n }

/-! ### The file classifier -/

/-- `DLC_OUTPUT_SUFFIX` from the source. -/
def DLC_OUTPUT_SUFFIX : String := ".h5"

/-- `is_DLC_output`, translated clause by clause from the source. -/
def is_DLC_output (filepath : FsPath) : Bool :=
  if filepath.suffix ≠ DLC_OUTPUT_SUFFIX then
    false
  else if (pyIn "DLC_" filepath.name = false) ∧
      (pyIn "DeepLabCut_" filepath.name = false) then
    false
  else if pyIn "shuffle" filepath.name = false then
    false
  else
    true

/-! ### Result model -/

/-- `Status`, an enumerated outcome. -/
inductive Status where
  | SUCCESS
  | SKIPPED
  | FAILED
  deriving DecidableEq, Repr

/-- `Result`: outcome record of one conversion attempt. -/
structure Result where
  dstfile : FsPath
  status : Status
  message : Option String
  deriving DecidableEq, Repr

/-- `Result.success`. The source never passes a message here. -/
def Result.success (dstfile : FsPath) : Result :=
  ⟨dstfile, Status.SUCCESS, none⟩

/-- `Result.skipped`. -/
def Result.skipped (dstfile : FsPath) (message : String) : Result :=
  ⟨dstfile, Status.SKIPPED, some message⟩

/-- `Result.failed`. -/
def Result.failed (dstfile : FsPath) (message : String) : Result :=
  ⟨dstfile, Status.FAILED, some message⟩

/-- `Result.is_success`. -/
def Result.is_success (r : Result) : Bool :=
  r.status = Status.SUCCESS

/-- `Result.is_skipped`. -/
def Result.is_skipped (r : Result) : Bool :=
  r.status = Status.SKIPPED

/-- `Result.is_failed`. -/
def Result.is_failed (r : Result) : Bool :=
  r.status = Status.FAILED

/-! ### Conversion strategies and the format registry -/

/-- An in-memory table (`pandas.DataFrame` abstracted to its rows of cells,
header row included). -/
def Table : Type := List (List String)

/-- The text `DataFrame.to_csv(path, header=True, index=False)` writes:
comma-joined cells, newline-joined rows. Deterministic in the table. -/
def toCsvText (tab : Table) : String :=
  String.intercalate "\n" (tab.map (String.intercalate ","))

/-- A conversion strategy: how to derive the destination path from the
source path, and how to serialize a loaded table to file contents
(the `Conversion` capability set; only registered subclasses are modelled,
the abstract base raises `NotImplementedError` on both operations). -/
structure Conversion where
  dstfile : FsPath → FsPath
  serialize : Table → String

/-- `CSVConversion`: destination is `srcfile.with_name(f"{srcfile.stem}.csv")`;
serialization is `to_csv` with header and no index column. -/
def CSVConversion : Conversion where
  dstfile := fun srcfile => srcfile.withName (pyStem srcfile.name ++ ".csv")
  serialize := toCsvText

/-- `FORMATS`: the registry mapping format identifiers to strategies. -/
def FORMATS : List (String × Conversion) :=
  [("csv", CSVConversion)]

/-! ### Filesystem state -/

/-- Explicit filesystem state. `dirs` are the existing directories (as
component lists), `files` maps paths to contents. `mkdirErr` and `writeErr`
inject the exceptions the real filesystem can raise at `mkdir` and at file
writing: an entry `(d, e)` makes `mkdir d` (resp. writing path `d`) raise
an exception whose text is `e`. -/
structure FsState where
  dirs : List (List String)
  files : List (FsPath × String)
  mkdirErr : List (List String × String)
  writeErr : List (FsPath × String)
  deriving Repr

/-- `Path.exists()` on a directory path. -/
def FsState.dirExists (st : FsState) (d : List String) : Bool :=
  st.dirs.contains d

/-- `Path.exists()` on a file path. -/
def FsState.fileExists (st : FsState) (p : FsPath) : Bool :=
  (st.files.lookup p).isSome

/-- `Path.mkdir(parents=True)`: raises when an injected error is present,
otherwise records the directory and all its ancestors as existing. -/
def FsState.mkdirParents (st : FsState) (d : List String) :
    Except String FsState :=
  match st.mkdirErr.lookup d with
  | some e => Except.error e
  | none => Except.ok { st with dirs := d.inits ++ st.dirs }

/-- Writing file contents: raises when an injected error is present,
otherwise replaces any previous contents at that path. -/
def FsState.writeFile (st : FsState) (p : FsPath) (c : String) :
    Except String FsState :=
  match st.writeErr.lookup p with
  | some e => Except.error e
  | none =>
    Except.ok { st with files := (p, c) :: st.files.filter (fun q => q.1 ≠ p) }

/-- `pandas.read_hdf(srcfile)`: raises when the file does not exist,
otherwise parses the stored contents with the external loader `parse`
(which may itself raise, e.g. on malformed content). -/
def read_hdf (parse : String → Except String Table) (st : FsState)
    (p : FsPath) : Except String Table :=
  match st.files.lookup p with
  | none => Except.error ("No such file or directory: " ++ p.name)
  | some c => parse c

/-! ### The converter -/

/-- The destination path `convert` computes before its `try:` block:
the strategy default, rebased onto `dstdir` (keeping only the base name)
when `dstdir` is given. -/
def dstPathFor (conversion : Conversion) (srcfile : FsPath)
    (dstdir : Option (List String)) : FsPath :=
  match dstdir with
  | none => conversion.dstfile srcfile
  | some d => ⟨d, (conversion.dstfile srcfile).name⟩

/-- The tail of the `try:` block shared by both branches:
`tab = pd.read_hdf(srcfile); conversion.convert(tab, dstfile);
return Result.success(dstfile)`. Returns the state after whatever side
effects happened, and either the `Result` or the pending exception. -/
def loadAndWrite (parse : String → Except String Table) (st : FsState)
    (srcfile : FsPath) (conversion : Conversion) (dstfile : FsPath) :
    FsState × Except String Result :=
  match read_hdf parse st srcfile with
  | Except.error e => (st, Except.error e)
  | Except.ok tab =>
    match st.writeFile dstfile (conversion.serialize tab) with
    | Except.error e => (st, Except.error e)
    | Except.ok st2 => (st2, Except.ok (Result.success dstfile))

/-- The `try:` block of `convert`: `if not dstfile.parent.exists():
dstfile.parent.mkdir(parents=True)` — note the `mkdir` call is INSIDE the
`try:` scope — `elif dstfile.exists() and (bool(overwrite) is False): return
Result.skipped(...)`, then fall through to load-and-write. Returns the state
after whatever side effects happened, and either the `Result` or the pending
exception. -/
def tryBody (parse : String → Except String Table) (st : FsState)
    (srcfile : FsPath) (conversion : Conversion) (dstfile : FsPath)
    (overwrite : Bool) : FsState × Except String Result :=
  if st.dirExists dstfile.dirs = false then
    match st.mkdirParents dstfile.dirs with
    | Except.error e => (st, Except.error e)
    | Except.ok st1 => loadAndWrite parse st1 srcfile conversion dstfile
  else if st.fileExists dstfile = true ∧ overwrite = false then
    (st, Except.ok (Result.skipped dstfile "the converted file already exists"))
  else
    loadAndWrite parse st srcfile conversion dstfile

/-- The `except Exception as e:` handler of `convert`: a pending exception
becomes `Result.failed(dstfile, f"failed to convert: {e}")` (after printing
a traceback to stderr, which carries no information the model keeps). -/
def wrapTry (dstfile : FsPath) :
    FsState × Except String Result → Except String (FsState × Result)
  | (st1, Except.ok r) => Except.ok (st1, r)
  | (st1, Except.error e) =>
    Except.ok (st1, Result.failed dstfile ("failed to convert: " ++ e))

/-- `convert`, translated from the source. The outer `Except` is the
`KeyError` raised for an unregistered format, which is not caught; every
exception arising inside the `try:` block (mkdir, load, write) is turned
into `Result.failed(dstfile, "failed to convert: <e>")` by `wrapTry`. -/
def convert (parse : String → Except String Table) (st : FsState)
    (srcfile : FsPath) (fileformat : String) (dstdir : Option (List String))
    (overwrite : Bool) : Except String (FsState × Result) :=
  match FORMATS.lookup fileformat with
  | none =>
    Except.error ("file format not found: \x27" ++ fileformat ++ "\x27")
  | some conversion =>
    wrapTry (dstPathFor conversion srcfile dstdir)
      (tryBody parse st srcfile conversion
        (dstPathFor conversion srcfile dstdir) overwrite)

/-! ### The tree walker -/

mutual
/-- A directory entry as the walker sees it: either a file (with its full
path) or a subdirectory with its own entries; `child.is_dir()` is the `dir`
case. -/
inductive Entry where
  | file : FsPath → Entry
  | dir : EntryList → Entry

/-- The listing of a directory (`current.iterdir()`). -/
inductive EntryList where
  | nil : EntryList
  | cons : Entry → EntryList → EntryList
end

/-- One line of console output: `out` went to standard output, `err` to
standard error. -/
inductive OutLine where
  | out : String → OutLine
  | err : String → OutLine
  deriving DecidableEq, Repr

/-- The per-file body of `_recurse_single`: convert the matched file, then
print `child.name` to stdout on success, or
`f"***{result.message}: {child.name}"` to stderr otherwise. An uncaught
exception from `convert` (the `KeyError`) propagates. -/
def handleFile (parse : String → Except String Table) (fileformat : String)
    (dstdir : Option (List String)) (overwrite : Bool) (st : FsState)
    (child : FsPath) : Except String (FsState × List OutLine) :=
  match convert parse st child fileformat dstdir overwrite with
  | Except.error e => Except.error e
  | Except.ok (st1, result) =>
    if result.is_success then
      Except.ok (st1, [OutLine.out child.name])
    else
      Except.ok (st1,
        [OutLine.err ("***" ++ (match result.message with
          | some m => m
          | none => "None") ++ ": " ++ child.name)])

mutual
/-- `_recurse_single` on a single entry: recurse into directories, convert
classifier matches, ignore everything else. Threads the filesystem state and
accumulates the console lines in traversal order. -/
def recurse_single (parse : String → Except String Table) (fileformat : String)
    (dstdir : Option (List String)) (overwrite : Bool) (st : FsState) :
    Entry → Except String (FsState × List OutLine)
  | Entry.file child =>
    if is_DLC_output child then
      handleFile parse fileformat dstdir overwrite st child
    else
      Except.ok (st, [])
  | Entry.dir entries =>
    recurse_list parse fileformat dstdir overwrite st entries

/-- The `for child in current.iterdir()` loop of `_recurse_single`. -/
def recurse_list (parse : String → Except String Table) (fileformat : String)
    (dstdir : Option (List String)) (overwrite : Bool) (st : FsState) :
    EntryList → Except String (FsState × List OutLine)
  | EntryList.nil => Except.ok (st, [])
  | EntryList.cons e es =>
    match recurse_single parse fileformat dstdir overwrite st e with
    | Except.error msg => Except.error msg
    | Except.ok (st1, l1) =>
      match recurse_list parse fileformat dstdir overwrite st1 es with
      | Except.error msg => Except.error msg
      | Except.ok (st2, l2) => Except.ok (st2, l1 ++ l2)
end

mutual
/-- The classifier-matched files of an entry, in traversal order. -/
def matchedFiles : Entry → List FsPath
  | Entry.file p => if is_DLC_output p then [p] else []
  | Entry.dir entries => matchedFilesList entries

/-- The classifier-matched files of an entry list, in traversal order. -/
def matchedFilesList : EntryList → List FsPath
  | EntryList.nil => []
  | EntryList.cons e es => matchedFiles e ++ matchedFilesList es
end

/-- Reference walk: convert an explicit list of files in order, one console
line per file. The tree walk is proved equal to this applied to the
classifier-matched files of the tree. -/
def processSeq (parse : String → Except String Table) (fileformat : String)
    (dstdir : Option (List String)) (overwrite : Bool) (st : FsState) :
    List FsPath → Except String (FsState × List OutLine)
  | [] => Except.ok (st, [])
  | p :: ps =>
    match handleFile parse fileformat dstdir overwrite st p with
    | Except.error msg => Except.error msg
    | Except.ok (st1, l1) =>
      match processSeq parse fileformat dstdir overwrite st1 ps with
      | Except.error msg => Except.error msg
      | Except.ok (st2, l2) => Except.ok (st2, l1 ++ l2)

/-! ### Substring characterization -/

theorem listStartsWith_iff (a : List Char) : ∀ b : List Char,
    listStartsWith a b = true ↔ ∃ t, b = a ++ t := by
  induction a with
  | nil =>
    intro b
    simp [listStartsWith]
  | cons c cs ih =>
    intro b
    cases b with
    | nil =>
      simp [listStartsWith]
    | cons d ds =>
      simp only [listStartsWith, Bool.and_eq_true, beq_iff_eq, ih]
      constructor
      · rintro ⟨rfl, t, rfl⟩
        exact ⟨t, rfl⟩
      · rintro ⟨t, h⟩
        injection h with h1 h2
        subst h1
        exact ⟨rfl, t, h2⟩

theorem listIn_iff (n : List Char) : ∀ h : List Char,
    listIn n h = true ↔ ∃ x y, h = x ++ n ++ y := by
  intro h
  induction h with
  | nil =>
    simp only [listIn, List.isEmpty_iff]
    constructor
    · rintro rfl
      exact ⟨[], [], rfl⟩
    · rintro ⟨x, y, hxy⟩
      rcases List.append_eq_nil.mp hxy.symm with ⟨h1, -⟩
      exact (List.append_eq_nil.mp h1).2
  | cons c rest ih =>
    simp only [listIn, Bool.or_eq_true, listStartsWith_iff, ih]
    constructor
    · rintro (⟨t, ht⟩ | ⟨x, y, hxy⟩)
      · exact ⟨[], t, ht⟩
      · exact ⟨c :: x, y, by simp [hxy]⟩
    · rintro ⟨x, y, hxy⟩
      cases x with
      | nil =>
        exact Or.inl ⟨y, by simpa using hxy⟩
      | cons d ds =>
        injection hxy with h1 h2
        subst h1
        exact Or.inr ⟨ds, y, h2⟩

theorem pyIn_iff (n h : String) :
    pyIn n h = true ↔ ∃ x y, h = x ++ n ++ y := by
  unfold pyIn
  rw [listIn_iff]
  constructor
  · rintro ⟨x, y, hxy⟩
    refine ⟨String.mk x, String.mk y, String.ext ?_⟩
    simpa [String.data_append] using hxy
  · rintro ⟨x, y, rfl⟩
    exact ⟨x.data, y.data, by simp [String.data_append]⟩

/-! ### Path arithmetic -/

theorem rfindChar_append_of_right (c : Char) (xs : List Char) :
    ∀ (ys : List Char) (j : Nat), rfindChar c ys = some j →
      rfindChar c (xs ++ ys) = some (xs.length + j) := by
  induction xs with
  | nil =>
    intro ys j h
    simpa using h
  | cons a t ih =>
    intro ys j h
    rw [List.cons_append, rfindChar, ih ys j h]
    show some (t.length + j + 1) = some ((a :: t).length + j)
    congr 1
    simp only [List.length_cons]
    omega

theorem rfindChar_dot_csv : rfindChar '.' ".csv".data = some 0 := by decide

theorem csv_data_length : (".csv" : String).data.length = 4 := by decide

theorem string_data_ne_nil (s : String) (h : s ≠ "") : s.data ≠ [] := by
  intro hd
  exact h (String.ext hd)

theorem rfindChar_append_csv (s : String) :
    rfindChar '.' (s ++ ".csv").data = some s.data.length := by
  rw [String.data_append]
  simpa using rfindChar_append_of_right '.' s.data ".csv".data 0 rfindChar_dot_csv

theorem pyStem_append_csv (s : String) (h : s ≠ "") :
    pyStem (s ++ ".csv") = s := by
  have hlen : 0 < s.data.length :=
    List.length_pos.mpr (string_data_ne_nil s h)
  have hlt : s.data.length + 1 < (s ++ ".csv").data.length := by
    rw [String.data_append, List.length_append, csv_data_length]
    omega
  unfold pyStem
  rw [rfindChar_append_csv s]
  show (if 0 < s.data.length ∧ s.data.length + 1 < (s ++ ".csv").data.length
    then String.mk ((s ++ ".csv").data.take s.data.length)
    else (s ++ ".csv")) = s
  rw [if_pos ⟨hlen, hlt⟩, String.data_append, List.take_left]

theorem pySuffix_append_csv (s : String) (h : s ≠ "") :
    pySuffix (s ++ ".csv") = ".csv" := by
  have hlen : 0 < s.data.length :=
    List.length_pos.mpr (string_data_ne_nil s h)
  have hlt : s.data.length + 1 < (s ++ ".csv").data.length := by
    rw [String.data_append, List.length_append, csv_data_length]
    omega
  unfold pySuffix
  rw [rfindChar_append_csv s]
  show (if 0 < s.data.length ∧ s.data.length + 1 < (s ++ ".csv").data.length
    then String.mk ((s ++ ".csv").data.drop s.data.length)
    else "") = ".csv"
  rw [if_pos ⟨hlen, hlt⟩, String.data_append, List.drop_left]

theorem pyStem_ne_empty (name : String) (h : name ≠ "") : pyStem name ≠ "" := by
  unfold pyStem
  cases hf : rfindChar '.' name.data with
  | none => exact h
  | some i =>
    show (if 0 < i ∧ i + 1 < name.data.length
      then String.mk (name.data.take i) else name) ≠ ""
    by_cases hc : 0 < i ∧ i + 1 < name.data.length
    · rw [if_pos hc]
      intro he
      have htake : name.data.take i = [] := by
        simpa using congrArg String.data he
      rcases List.take_eq_nil_iff.mp htake with h0 | hnil
      · omega
      · exact h (String.ext hnil)
    · rw [if_neg hc]
      exact h

/-! ### Filesystem lemmas -/

theorem writeFile_ok_facts (st : FsState) (p : FsPath) (c : String)
    (st2 : FsState) (h : st.writeFile p c = Except.ok st2) :
    st2.dirs = st.dirs ∧ st2.fileExists p = true ∧
      st2.mkdirErr = st.mkdirErr ∧ st2.writeErr = st.writeErr := by
  unfold FsState.writeFile at h
  cases hle : st.writeErr.lookup p with
  | some e => rw [hle] at h; exact absurd h (by simp)
  | none =>
    rw [hle] at h
    injection h with h
    subst h
    refine ⟨rfl, ?_, rfl, rfl⟩
    simp [FsState.fileExists, List.lookup_cons]

theorem mkdirParents_ok_facts (st : FsState) (d : List String)
    (st1 : FsState) (h : st.mkdirParents d = Except.ok st1) :
    st1.dirExists d = true ∧ st1.files = st.files ∧
      st1.mkdirErr = st.mkdirErr ∧ st1.writeErr = st.writeErr := by
  unfold FsState.mkdirParents at h
  cases hle : st.mkdirErr.lookup d with
  | some e => rw [hle] at h; exact absurd h (by simp)
  | none =>
    rw [hle] at h
    injection h with h
    subst h
    refine ⟨?_, rfl, rfl, rfl⟩
    have hm : d ∈ d.inits ++ st.dirs :=
      List.mem_append_left _ ((List.mem_inits d d).mpr List.prefix_rfl)
    exact List.elem_iff.mpr hm

/-- The load-and-write tail either succeeds — writing the destination and
leaving the directories untouched — or leaves the state unchanged and
reports the exception. -/
theorem loadAndWrite_cases (parse : String → Except String Table)
    (st : FsState) (srcfile : FsPath) (conversion : Conversion)
    (dstfile : FsPath) :
    (∃ st2, loadAndWrite parse st srcfile conversion dstfile =
        (st2, Except.ok (Result.success dstfile)) ∧
      st2.dirs = st.dirs ∧ st2.fileExists dstfile = true) ∨
    (∃ e, loadAndWrite parse st srcfile conversion dstfile =
        (st, Except.error e)) := by
  cases hr : read_hdf parse st srcfile with
  | error e =>
    refine Or.inr ⟨e, ?_⟩
    unfold loadAndWrite
    rw [hr]
  | ok tab =>
    cases hw : st.writeFile dstfile (conversion.serialize tab) with
    | error e =>
      refine Or.inr ⟨e, ?_⟩
      simp [loadAndWrite, hr, hw]
    | ok st2 =>
      rcases writeFile_ok_facts st _ _ st2 hw with ⟨h1, h2, -, -⟩
      refine Or.inl ⟨st2, ?_, h1, h2⟩
      simp [loadAndWrite, hr, hw]

/-- Exhaustive characterization of the `try:` block's outcomes. -/
theorem tryBody_cases (parse : String → Except String Table) (st : FsState)
    (srcfile : FsPath) (conversion : Conversion) (dstfile : FsPath)
    (overwrite : Bool) :
    (∃ st2, tryBody parse st srcfile conversion dstfile overwrite =
        (st2, Except.ok (Result.success dstfile)) ∧
      st2.dirExists dstfile.dirs = true ∧ st2.fileExists dstfile = true) ∨
    (∃ st2 e, tryBody parse st srcfile conversion dstfile overwrite =
        (st2, Except.error e)) ∨
    (tryBody parse st srcfile conversion dstfile overwrite =
        (st, Except.ok (Result.skipped dstfile "the converted file already exists")) ∧
      overwrite = false ∧ st.dirExists dstfile.dirs = true ∧
      st.fileExists dstfile = true) := by
  unfold tryBody
  by_cases hd : st.dirExists dstfile.dirs = false
  · rw [if_pos hd]
    cases hmk : st.mkdirParents dstfile.dirs with
    | error e => exact Or.inr (Or.inl ⟨st, e, rfl⟩)
    | ok st1 =>
      rcases mkdirParents_ok_facts st _ st1 hmk with ⟨hdir, -, -, -⟩
      rcases loadAndWrite_cases parse st1 srcfile conversion dstfile with
        ⟨st2, hlw, hds, hfe⟩ | ⟨e, hlw⟩
      · refine Or.inl ⟨st2, hlw, ?_, hfe⟩
        simpa [FsState.dirExists, hds] using hdir
      · exact Or.inr (Or.inl ⟨st1, e, hlw⟩)
  · rw [if_neg hd]
    have hd' : st.dirExists dstfile.dirs = true := eq_true_of_ne_false hd
    by_cases hsk : st.fileExists dstfile = true ∧ overwrite = false
    · rw [if_pos hsk]
      exact Or.inr (Or.inr ⟨rfl, hsk.2, hd', hsk.1⟩)
    · rw [if_neg hsk]
      rcases loadAndWrite_cases parse st srcfile conversion dstfile with
        ⟨st2, hlw, hds, hfe⟩ | ⟨e, hlw⟩
      · refine Or.inl ⟨st2, hlw, ?_, hfe⟩
        simpa [FsState.dirExists, hds] using hd'
      · exact Or.inr (Or.inl ⟨st, e, hlw⟩)

/-- On a registered format, `convert` is the exception wrapper applied to
the `try:` block at the rebased destination. -/
theorem convert_eq_of_lookup (parse : String → Except String Table)
    (st : FsState) (srcfile : FsPath) (fileformat : String)
    (conversion : Conversion) (dstdir : Option (List String))
    (overwrite : Bool) (hf : FORMATS.lookup fileformat = some conversion) :
    convert parse st srcfile fileformat dstdir overwrite =
      wrapTry (dstPathFor conversion srcfile dstdir)
        (tryBody parse st srcfile conversion
          (dstPathFor conversion srcfile dstdir) overwrite) := by
  unfold convert
  rw [hf]

/-- Master characterization of `convert` on a registered format: it always
returns a `Result` (never raises), the result carries the rebased
destination path, and the outcome is a messageless success, a failure
wrapping the exception text, or — only when `overwrite` is false — the
skip, which leaves the state untouched. -/
theorem convert_registered_total (parse : String → Except String Table)
    (st : FsState) (srcfile : FsPath) (fileformat : String)
    (conversion : Conversion) (dstdir : Option (List String))
    (overwrite : Bool) (hf : FORMATS.lookup fileformat = some conversion) :
    ∃ st1 r, convert parse st srcfile fileformat dstdir overwrite =
        Except.ok (st1, r) ∧
      r.dstfile = dstPathFor conversion srcfile dstdir ∧
      ((r.status = Status.SUCCESS ∧ r.message = none ∧
          st1.dirExists r.dstfile.dirs = true ∧ st1.fileExists r.dstfile = true) ∨
        (∃ e, r.status = Status.FAILED ∧
          r.message = some ("failed to convert: " ++ e)) ∨
        (r.status = Status.SKIPPED ∧
          r.message = some "the converted file already exists" ∧
          overwrite = false ∧ st1 = st)) := by
  rw [convert_eq_of_lookup parse st srcfile fileformat conversion dstdir
    overwrite hf]
  rcases tryBody_cases parse st srcfile conversion
      (dstPathFor conversion srcfile dstdir) overwrite with
    ⟨st2, htb, hdir, hfe⟩ | ⟨st2, e, htb⟩ | ⟨htb, how, -, -⟩
  · exact ⟨st2, Result.success (dstPathFor conversion srcfile dstdir),
      by rw [htb]; rfl, rfl, Or.inl ⟨rfl, rfl, hdir, hfe⟩⟩
  · exact ⟨st2, Result.failed (dstPathFor conversion srcfile dstdir)
        ("failed to convert: " ++ e),
      by rw [htb]; rfl, rfl, Or.inr (Or.inl ⟨e, rfl, rfl⟩)⟩
  · exact ⟨st, Result.skipped (dstPathFor conversion srcfile dstdir)
        "the converted file already exists",
      by rw [htb]; rfl, rfl, Or.inr (Or.inr ⟨rfl, rfl, how, rfl⟩)⟩

/-! ### Claim theorems -/

/-- **C1.** `is_DLC_output p` is true iff the extension of `p` is exactly
`.h5`, the file name contains the substring `DLC_` or the substring
`DeepLabCut_`, and the file name contains the substring `shuffle`. -/
theorem is_DLC_output_iff (p : FsPath) :
    is_DLC_output p = true ↔
      p.suffix = ".h5" ∧
      ((∃ x y, p.name = x ++ "DLC_" ++ y) ∨
        (∃ x y, p.name = x ++ "DeepLabCut_" ++ y)) ∧
      (∃ x y, p.name = x ++ "shuffle" ++ y) := by
  simp only [← pyIn_iff]
  unfold is_DLC_output DLC_OUTPUT_SUFFIX
  split_ifs with h1 h2 h3
  · simp only [Bool.false_eq_true, false_iff]
    rintro ⟨hs, -, -⟩
    exact h1 hs
  · simp only [Bool.false_eq_true, false_iff]
    rintro ⟨-, hd, -⟩
    rcases hd with hd | hd
    · rw [h2.1] at hd
      exact Bool.false_ne_true hd
    · rw [h2.2] at hd
      exact Bool.false_ne_true hd
  · simp only [Bool.false_eq_true, false_iff]
    rintro ⟨-, -, hs⟩
    rw [h3] at hs
    exact Bool.false_ne_true hs
  · have hs : p.suffix = ".h5" := Decidable.of_not_not h1
    have hd : pyIn "DLC_" p.name = true ∨ pyIn "DeepLabCut_" p.name = true := by
      rcases Decidable.not_and_iff_or_not.mp h2 with h | h
      · exact Or.inl (eq_true_of_ne_false h)
      · exact Or.inr (eq_true_of_ne_false h)
    have hsh : pyIn "shuffle" p.name = true := eq_true_of_ne_false h3
    simp [hs, hd, hsh]

/-- **C10.** The classifier depends only on the final path component:
paths with equal file names classify identically, whatever their parent
directories. -/
theorem is_DLC_output_depends_only_on_name (p q : FsPath)
    (h : p.name = q.name) : is_DLC_output p = is_DLC_output q := by
  simp only [is_DLC_output, FsPath.suffix, h]

/-- Witness for C10 at concrete inputs: same name, different parents. -/
theorem is_DLC_output_depends_only_on_name_witness :
    is_DLC_output ⟨["data", "run1"], "testDLC_resnet50shuffle1.h5"⟩ =
      is_DLC_output ⟨["elsewhere"], "testDLC_resnet50shuffle1.h5"⟩ :=
  is_DLC_output_depends_only_on_name _ _ rfl

/-- **C8.** The CSV strategy's destination is the source path with its
extension replaced by `.csv`: same parent directory, same stem (for any
path with a nonempty file name — a path with an empty name has no file and
makes `Path.with_name` raise in the source). -/
theorem CSVConversion_dstfile_spec (p : FsPath) (h : p.name ≠ "") :
    (CSVConversion.dstfile p).dirs = p.dirs ∧
    (CSVConversion.dstfile p).name = p.stem ++ ".csv" ∧
    (CSVConversion.dstfile p).stem = p.stem ∧
    (CSVConversion.dstfile p).suffix = ".csv" := by
  refine ⟨rfl, rfl, ?_, ?_⟩
  · show pyStem (pyStem p.name ++ ".csv") = pyStem p.name
    exact pyStem_append_csv (pyStem p.name) (pyStem_ne_empty p.name h)
  · show pySuffix (pyStem p.name ++ ".csv") = ".csv"
    exact pySuffix_append_csv (pyStem p.name) (pyStem_ne_empty p.name h)

/-- Witness for C8 at a concrete input. -/
theorem CSVConversion_dstfile_spec_witness :
    (FsPath.mk ["data"] "runDLC_shuffle3.h5").name ≠ "" ∧
    ((CSVConversion.dstfile ⟨["data"], "runDLC_shuffle3.h5"⟩).dirs = ["data"] ∧
      (CSVConversion.dstfile ⟨["data"], "runDLC_shuffle3.h5"⟩).name =
        (FsPath.mk ["data"] "runDLC_shuffle3.h5").stem ++ ".csv" ∧
      (CSVConversion.dstfile ⟨["data"], "runDLC_shuffle3.h5"⟩).stem =
        (FsPath.mk ["data"] "runDLC_shuffle3.h5").stem ∧
      (CSVConversion.dstfile ⟨["data"], "runDLC_shuffle3.h5"⟩).suffix = ".csv") :=
  ⟨by decide, CSVConversion_dstfile_spec ⟨["data"], "runDLC_shuffle3.h5"⟩
    (by decide)⟩

/-! ### Concrete fixtures used by witnesses and counterexamples -/

/-- A trivial external loader: parses file contents into a one-cell table. -/
def parseFix : String → Except String Table :=
  fun c => Except.ok [[c]]

/-- A concrete DeepLabCut output file path. -/
def srcFix : FsPath := ⟨["d"], "xDLC_shuffle.h5"⟩

/-- Its default CSV destination. -/
def dstFix : FsPath := ⟨["d"], "xDLC_shuffle.csv"⟩

/-- A state in which the source exists and the destination does not. -/
def stFix : FsState := ⟨[["d"]], [(srcFix, "DATA")], [], []⟩

/-- The state after one successful conversion in `stFix`. -/
def stFix1 : FsState := ⟨[["d"]], [(dstFix, "DATA"), (srcFix, "DATA")], [], []⟩

/-- The CSV destination rebased into the directory `["o"]`. -/
def dstO : FsPath := ⟨["o"], "xDLC_shuffle.csv"⟩

/-- A state in which creating the directory `["o"]` raises `boom`. -/
def stMkErr : FsState := ⟨[], [(srcFix, "DATA")], [(["o"], "boom")], []⟩

/-- The state after converting from `stFix` into the fresh directory `["o"]`. -/
def stFixO : FsState :=
  ⟨[[], ["o"], ["d"]], [(dstO, "DATA"), (srcFix, "DATA")], [], []⟩

/-- Helper: with a registered format, an existing destination parent and an
existing destination file, a non-overwriting run returns the skip `Result`
and leaves the state untouched. -/
theorem convert_skip_helper (parse : String → Except String Table)
    (st : FsState) (srcfile : FsPath) (fileformat : String)
    (conversion : Conversion) (dstdir : Option (List String))
    (overwrite : Bool)
    (hf : FORMATS.lookup fileformat = some conversion)
    (hdir : st.dirExists (dstPathFor conversion srcfile dstdir).dirs = true)
    (hfile : st.fileExists (dstPathFor conversion srcfile dstdir) = true)
    (how : overwrite = false) :
    convert parse st srcfile fileformat dstdir overwrite =
      Except.ok (st, Result.skipped (dstPathFor conversion srcfile dstdir)
        "the converted file already exists") := by
  rw [convert_eq_of_lookup parse st srcfile fileformat conversion dstdir
    overwrite hf]
  unfold tryBody
  rw [if_neg (by simp [hdir]), if_pos ⟨hfile, how⟩]
  rfl

/-- **C2.** When the format is registered, the destination's parent
directory exists, the destination file exists and `overwrite` is false,
`convert` returns the skip `Result` with the exact message
`the converted file already exists`, leaves the state untouched, and never
consults the loader (the conclusion holds for every `parse`). -/
theorem convert_skips_existing (parse : String → Except String Table)
    (st : FsState) (srcfile : FsPath) (fileformat : String)
    (conversion : Conversion) (dstdir : Option (List String))
    (overwrite : Bool)
    (hf : FORMATS.lookup fileformat = some conversion)
    (hdir : st.dirExists (dstPathFor conversion srcfile dstdir).dirs = true)
    (hfile : st.fileExists (dstPathFor conversion srcfile dstdir) = true)
    (how : overwrite = false) :
    convert parse st srcfile fileformat dstdir overwrite =
      Except.ok (st, Result.skipped (dstPathFor conversion srcfile dstdir)
        "the converted file already exists") :=
  convert_skip_helper parse st srcfile fileformat conversion dstdir
    overwrite hf hdir hfile how

/-- Witness for C2 at a concrete input. -/
theorem convert_skips_existing_witness :
    stFix1.fileExists dstFix = true ∧
    convert parseFix stFix1 srcFix "csv" none false =
      Except.ok (stFix1, Result.skipped dstFix
        "the converted file already exists") :=
  ⟨by decide, convert_skips_existing parseFix stFix1 srcFix "csv"
    CSVConversion none false rfl (by decide) (by decide) rfl⟩

/-- **C4.** On an unregistered format identifier, `convert` raises the
`KeyError` — the same error for every filesystem state and every loader,
so no filesystem operation can have taken place. -/
theorem convert_unregistered_raises (parse : String → Except String Table)
    (st : FsState) (srcfile : FsPath) (fileformat : String)
    (dstdir : Option (List String)) (overwrite : Bool)
    (hf : FORMATS.lookup fileformat = none) :
    convert parse st srcfile fileformat dstdir overwrite =
      Except.error ("file format not found: \x27" ++ fileformat ++ "\x27") := by
  unfold convert
  rw [hf]

/-- Witness for C4: format `xml` is not registered. -/
theorem convert_unregistered_raises_witness :
    convert parseFix stFix srcFix "xml" none false =
      Except.error ("file format not found: \x27xml\x27") :=
  convert_unregistered_raises parseFix stFix srcFix "xml" none false rfl

/-- **C9.** With `overwrite = true`, `convert` never returns a skipped
`Result`: any returned outcome is a success or a failure. -/
theorem convert_overwrite_never_skipped (parse : String → Except String Table)
    (st : FsState) (srcfile : FsPath) (fileformat : String)
    (dstdir : Option (List String)) (st1 : FsState) (r : Result)
    (h : convert parse st srcfile fileformat dstdir true =
      Except.ok (st1, r)) :
    r.status = Status.SUCCESS ∨ r.status = Status.FAILED := by
  cases hf : FORMATS.lookup fileformat with
  | none =>
    unfold convert at h
    rw [hf] at h
    simp at h
  | some conversion =>
    rcases convert_registered_total parse st srcfile fileformat conversion
        dstdir true hf with ⟨st1', r', heq, -, hcase⟩
    rw [h] at heq
    injection heq with heq
    injection heq with h1 h2
    subst h2
    rcases hcase with ⟨hst, -⟩ | ⟨e, hst, -⟩ | ⟨-, -, how, -⟩
    · exact Or.inl hst
    · exact Or.inr hst
    · exact absurd how (by simp)

/-- Witness for C9 at a concrete input (destination already exists, yet the
run overwrites rather than skips). -/
theorem convert_overwrite_never_skipped_witness :
    (Result.success dstFix).status = Status.SUCCESS ∨
    (Result.success dstFix).status = Status.FAILED :=
  convert_overwrite_never_skipped parseFix stFix1 srcFix "csv" none stFix1
    (Result.success dstFix) rfl

/-- **C3.** If a first run of `convert` with `overwrite = false` succeeds,
a second run with the same arguments from the resulting state returns the
skip `Result` and leaves the state — hence the destination file contents —
exactly as the first run left them. -/
theorem convert_success_then_skip (parse : String → Except String Table)
    (st : FsState) (srcfile : FsPath) (fileformat : String)
    (conversion : Conversion) (dstdir : Option (List String))
    (st1 : FsState) (r1 : Result)
    (hf : FORMATS.lookup fileformat = some conversion)
    (h1 : convert parse st srcfile fileformat dstdir false =
      Except.ok (st1, r1))
    (hs : r1.status = Status.SUCCESS) :
    convert parse st1 srcfile fileformat dstdir false =
      Except.ok (st1, Result.skipped (dstPathFor conversion srcfile dstdir)
        "the converted file already exists") := by
  rcases convert_registered_total parse st srcfile fileformat conversion
      dstdir false hf with ⟨st1', r', heq, hdst, hcase⟩
  rw [h1] at heq
  injection heq with heq
  injection heq with he1 he2
  subst he1
  subst he2
  rcases hcase with ⟨-, -, hdir, hfile⟩ | ⟨e, hfl, -⟩ | ⟨hsk, -, -, -⟩
  · rw [hdst] at hdir hfile
    exact convert_skip_helper parse st1 srcfile fileformat conversion
      dstdir false hf hdir hfile rfl
  · rw [hs] at hfl
    exact absurd hfl (by simp)
  · rw [hs] at hsk
    exact absurd hsk (by simp)

/-- Witness for C3 at a concrete input: the first run succeeds, the second
run from the produced state skips and changes nothing. -/
theorem convert_success_then_skip_witness :
    convert parseFix stFix1 srcFix "csv" none false =
      Except.ok (stFix1, Result.skipped dstFix
        "the converted file already exists") :=
  convert_success_then_skip parseFix stFix srcFix "csv" CSVConversion none
    stFix1 (Result.success dstFix) rfl rfl rfl

/-- **C6.** With a destination-directory override `D`, every `Result`
returned by `convert` carries the destination `D/<default destination base
name>` (not a path under the source's own directory), and when `D` did not
exist and creating it raises nothing, the returned state contains `D`. -/
theorem convert_dstdir_rebase (parse : String → Except String Table)
    (st : FsState) (srcfile : FsPath) (fileformat : String)
    (conversion : Conversion) (D : List String) (overwrite : Bool)
    (st1 : FsState) (r : Result)
    (hf : FORMATS.lookup fileformat = some conversion)
    (h : convert parse st srcfile fileformat (some D) overwrite =
      Except.ok (st1, r)) :
    r.dstfile = FsPath.mk D (conversion.dstfile srcfile).name ∧
    (st.dirExists D = false → st.mkdirErr.lookup D = none →
      st1.dirExists D = true) := by
  constructor
  · rcases convert_registered_total parse st srcfile fileformat conversion
        (some D) overwrite hf with ⟨st1', r', heq, hdst, -⟩
    rw [h] at heq
    injection heq with heq
    injection heq with he1 he2
    subst he1
    subst he2
    exact hdst
  · intro hD hmk
    have hmk2 : st.mkdirParents D = Except.ok
        { st with dirs := D.inits ++ st.dirs } := by
      unfold FsState.mkdirParents
      rw [hmk]
    have hconv : convert parse st srcfile fileformat (some D) overwrite =
        wrapTry (dstPathFor conversion srcfile (some D))
          (loadAndWrite parse { st with dirs := D.inits ++ st.dirs } srcfile
            conversion (dstPathFor conversion srcfile (some D))) := by
      have hD2 : st.dirExists (dstPathFor conversion srcfile (some D)).dirs =
          false := hD
      have hmk3 : st.mkdirParents
          (dstPathFor conversion srcfile (some D)).dirs =
          Except.ok { st with dirs := D.inits ++ st.dirs } := hmk2
      rw [convert_eq_of_lookup parse st srcfile fileformat conversion
        (some D) overwrite hf]
      unfold tryBody
      rw [if_pos hD2, hmk3]
    have hdirM : FsState.dirExists
        { st with dirs := D.inits ++ st.dirs } D = true :=
      (mkdirParents_ok_facts st D _ hmk2).1
    rcases loadAndWrite_cases parse { st with dirs := D.inits ++ st.dirs }
        srcfile conversion (dstPathFor conversion srcfile (some D)) with
      ⟨st2, hlw, hds, -⟩ | ⟨e, hlw⟩
    · rw [hlw] at hconv
      have hred : wrapTry (dstPathFor conversion srcfile (some D))
          (st2, Except.ok (Result.success
            (dstPathFor conversion srcfile (some D)))) =
          Except.ok (st2, Result.success
            (dstPathFor conversion srcfile (some D))) := rfl
      rw [hred, h] at hconv
      injection hconv with hconv
      injection hconv with he1 he2
      subst he1
      show st1.dirs.contains D = true
      rw [hds]
      exact hdirM
    · rw [hlw] at hconv
      have hred : wrapTry (dstPathFor conversion srcfile (some D))
          ({ st with dirs := D.inits ++ st.dirs }, Except.error e) =
          Except.ok ({ st with dirs := D.inits ++ st.dirs },
            Result.failed (dstPathFor conversion srcfile (some D))
              ("failed to convert: " ++ e)) := rfl
      rw [hred, h] at hconv
      injection hconv with hconv
      injection hconv with he1 he2
      subst he1
      exact hdirM

/-- Witness for C6 at a concrete input: converting into the fresh directory
`["o"]` rebases the destination and creates the directory. -/
theorem convert_dstdir_rebase_witness :
    (Result.success dstO).dstfile =
      FsPath.mk ["o"] (CSVConversion.dstfile srcFix).name ∧
    stFixO.dirExists ["o"] = true :=
  ⟨(convert_dstdir_rebase parseFix stFix srcFix "csv" CSVConversion ["o"]
      false stFixO (Result.success dstO) rfl rfl).1,
    (convert_dstdir_rebase parseFix stFix srcFix "csv" CSVConversion ["o"]
      false stFixO (Result.success dstO) rfl rfl).2 (by decide) rfl⟩

/-- **C5 (counterexample to the claim as stated).** At this concrete input
the destination's parent directory does not exist and `mkdir` raises
`boom`; `convert` nevertheless RETURNS (`Except.ok`) a `Failed` result
wrapping that exception — the mkdir exception is captured by the per-file
error handling, it does not propagate out of `convert`. -/
theorem mkdir_error_captured_counterexample :
    stMkErr.dirExists dstO.dirs = false ∧
    stMkErr.mkdirErr.lookup dstO.dirs = some "boom" ∧
    convert parseFix stMkErr srcFix "csv" (some ["o"]) false =
      Except.ok (stMkErr, Result.failed dstO "failed to convert: boom") :=
  ⟨rfl, rfl, rfl⟩

/-- **C5 (amended).** Per-file conversion failures never abort the tree
walk: on a registered format `convert` always returns a `Result` (it never
raises), an exception while creating the destination's parent directory is
captured into a `Failed` result exactly like load and serialization
exceptions, and the walker therefore never propagates an exception. -/
theorem convert_captures_per_file_errors (parse : String → Except String Table)
    (fileformat : String) (conversion : Conversion)
    (dstdir : Option (List String)) (overwrite : Bool)
    (hf : FORMATS.lookup fileformat = some conversion) :
    (∀ (st : FsState) (srcfile : FsPath), ∃ st1 r,
        convert parse st srcfile fileformat dstdir overwrite =
          Except.ok (st1, r)) ∧
    (∀ (st : FsState) (srcfile : FsPath) (e : String),
        st.dirExists (dstPathFor conversion srcfile dstdir).dirs = false →
        st.mkdirErr.lookup (dstPathFor conversion srcfile dstdir).dirs =
          some e →
        convert parse st srcfile fileformat dstdir overwrite =
          Except.ok (st, Result.failed (dstPathFor conversion srcfile dstdir)
            ("failed to convert: " ++ e))) := by
  constructor
  · intro st srcfile
    rcases convert_registered_total parse st srcfile fileformat conversion
        dstdir overwrite hf with ⟨st1, r, heq, -, -⟩
    exact ⟨st1, r, heq⟩
  · intro st srcfile e hD hmk
    have hmk2 : st.mkdirParents (dstPathFor conversion srcfile dstdir).dirs =
        Except.error e := by
      unfold FsState.mkdirParents
      rw [hmk]
    rw [convert_eq_of_lookup parse st srcfile fileformat conversion dstdir
      overwrite hf]
    unfold tryBody
    rw [if_pos hD, hmk2]
    rfl

/-- Witness for C5 (amended) at a concrete input. -/
theorem convert_captures_per_file_errors_witness :
    convert parseFix stMkErr srcFix "csv" (some ["o"]) false =
      Except.ok (stMkErr, Result.failed dstO "failed to convert: boom") :=
  (convert_captures_per_file_errors parseFix "csv" CSVConversion (some ["o"])
    false rfl).2 stMkErr srcFix "boom" (by decide) rfl

/-! ### Walker lemmas -/

/-- On a registered format, handling one matched file always returns. -/
theorem handleFile_total (parse : String → Except String Table)
    (fileformat : String) (conversion : Conversion)
    (dstdir : Option (List String)) (overwrite : Bool)
    (hf : FORMATS.lookup fileformat = some conversion)
    (st : FsState) (p : FsPath) :
    ∃ st1 ls, handleFile parse fileformat dstdir overwrite st p =
      Except.ok (st1, ls) := by
  rcases convert_registered_total parse st p fileformat conversion dstdir
      overwrite hf with ⟨st1, r, heq, -, -⟩
  unfold handleFile
  rw [heq]
  by_cases hs : r.is_success = true
  · exact ⟨st1, [OutLine.out p.name], by simp [hs]⟩
  · refine ⟨st1, [OutLine.err ("***" ++ (match r.message with
      | some m => m
      | none => "None") ++ ": " ++ p.name)], ?_⟩
    simp [hs]

mutual
/-- On a registered format, the walk of a single entry never raises. -/
theorem recurse_single_total (parse : String → Except String Table)
    (fileformat : String) (conversion : Conversion)
    (dstdir : Option (List String)) (overwrite : Bool)
    (hf : FORMATS.lookup fileformat = some conversion) :
    ∀ (st : FsState) (t : Entry), ∃ st1 ls,
      recurse_single parse fileformat dstdir overwrite st t =
        Except.ok (st1, ls)
  | st, Entry.file p => by
    by_cases hm : is_DLC_output p = true
    · rcases handleFile_total parse fileformat conversion dstdir overwrite
          hf st p with ⟨st1, ls, hh⟩
      refine ⟨st1, ls, ?_⟩
      unfold recurse_single
      rw [if_pos hm, hh]
    · refine ⟨st, [], ?_⟩
      unfold recurse_single
      rw [if_neg hm]
  | st, Entry.dir es => by
    unfold recurse_single
    exact recurse_list_total parse fileformat conversion dstdir overwrite
      hf st es

/-- On a registered format, the walk of a directory listing never raises. -/
theorem recurse_list_total (parse : String → Except String Table)
    (fileformat : String) (conversion : Conversion)
    (dstdir : Option (List String)) (overwrite : Bool)
    (hf : FORMATS.lookup fileformat = some conversion) :
    ∀ (st : FsState) (es : EntryList), ∃ st1 ls,
      recurse_list parse fileformat dstdir overwrite st es =
        Except.ok (st1, ls)
  | st, EntryList.nil => ⟨st, [], rfl⟩
  | st, EntryList.cons e es => by
    rcases recurse_single_total parse fileformat conversion dstdir overwrite
        hf st e with ⟨st1, l1, h1⟩
    rcases recurse_list_total parse fileformat conversion dstdir overwrite
        hf st1 es with ⟨st2, l2, h2⟩
    refine ⟨st2, l1 ++ l2, ?_⟩
    unfold recurse_list
    simp only [h1, h2]
end

/-- Processing a concatenation of file lists is processing the first list,
then the second from the state the first produced. -/
theorem processSeq_append (parse : String → Except String Table)
    (fileformat : String) (dstdir : Option (List String)) (overwrite : Bool) :
    ∀ (st : FsState) (xs ys : List FsPath),
      processSeq parse fileformat dstdir overwrite st (xs ++ ys) =
        match processSeq parse fileformat dstdir overwrite st xs with
        | Except.error e => Except.error e
        | Except.ok (st1, l1) =>
          match processSeq parse fileformat dstdir overwrite st1 ys with
          | Except.error e => Except.error e
          | Except.ok (st2, l2) => Except.ok (st2, l1 ++ l2) := by
  intro st xs
  induction xs generalizing st with
  | nil =>
    intro ys
    cases hys : processSeq parse fileformat dstdir overwrite st ys with
    | error e => simp [processSeq, hys]
    | ok q => simp [processSeq, hys]
  | cons p ps ih =>
    intro ys
    cases hhf : handleFile parse fileformat dstdir overwrite st p with
    | error e => simp [processSeq, hhf]
    | ok q =>
      obtain ⟨st1, l1⟩ := q
      cases hps : processSeq parse fileformat dstdir overwrite st1 ps with
      | error e => simp [processSeq, hhf, hps, ih st1 ys]
      | ok q2 =>
        obtain ⟨st2, l2⟩ := q2
        cases hys : processSeq parse fileformat dstdir overwrite st2 ys with
        | error e => simp [processSeq, hhf, hps, hys, ih st1 ys]
        | ok q3 =>
          obtain ⟨st3, l3⟩ := q3
          simp [processSeq, hhf, hps, hys, ih st1 ys]

mutual
/-- The walk of an entry equals sequential per-file processing of its
classifier-matched files, in traversal order. -/
theorem recurse_single_eq_processSeq (parse : String → Except String Table)
    (fileformat : String) (dstdir : Option (List String)) (overwrite : Bool) :
    ∀ (st : FsState) (t : Entry),
      recurse_single parse fileformat dstdir overwrite st t =
        processSeq parse fileformat dstdir overwrite st (matchedFiles t)
  | st, Entry.file p => by
    by_cases hm : is_DLC_output p = true
    · unfold recurse_single matchedFiles
      rw [if_pos hm, if_pos hm]
      cases hhf : handleFile parse fileformat dstdir overwrite st p with
      | error e => simp [processSeq, hhf]
      | ok q =>
        obtain ⟨st1, l1⟩ := q
        simp [processSeq, hhf]
    · unfold recurse_single matchedFiles
      rw [if_neg hm, if_neg hm]
      rfl
  | st, Entry.dir es => by
    unfold recurse_single matchedFiles
    exact recurse_list_eq_processSeq parse fileformat dstdir overwrite st es

/-- The walk of a directory listing equals sequential per-file processing
of its classifier-matched files, in traversal order. -/
theorem recurse_list_eq_processSeq (parse : String → Except String Table)
    (fileformat : String) (dstdir : Option (List String)) (overwrite : Bool) :
    ∀ (st : FsState) (es : EntryList),
      recurse_list parse fileformat dstdir overwrite st es =
        processSeq parse fileformat dstdir overwrite st (matchedFilesList es)
  | st, EntryList.nil => rfl
  | st, EntryList.cons e es => by
    unfold recurse_list matchedFilesList
    rw [processSeq_append parse fileformat dstdir overwrite st
      (matchedFiles e) (matchedFilesList es)]
    rw [recurse_single_eq_processSeq parse fileformat dstdir overwrite st e]
    cases hps : processSeq parse fileformat dstdir overwrite st
        (matchedFiles e) with
    | error e0 => rfl
    | ok q =>
      obtain ⟨st1, l1⟩ := q
      simp only [recurse_list_eq_processSeq parse fileformat dstdir overwrite
        st1 es]
end

/-- **C7.** During the recursive walk each classifier-matched file produces
exactly one output line and unmatched files produce none: the walk equals
per-file processing of exactly the matched files in traversal order, and
handling one file emits the single line `child.name` on stdout when the
`Result` is a success and the single line `***<message>: <child.name>` on
stderr otherwise (the message being present on every non-success). -/
theorem convert_recursive_one_line_per_match
    (parse : String → Except String Table) (fileformat : String)
    (conversion : Conversion) (dstdir : Option (List String))
    (overwrite : Bool)
    (hf : FORMATS.lookup fileformat = some conversion) :
    (∀ (st : FsState) (t : Entry),
      recurse_single parse fileformat dstdir overwrite st t =
        processSeq parse fileformat dstdir overwrite st (matchedFiles t)) ∧
    (∀ (st : FsState) (p : FsPath), ∃ st1 r,
      convert parse st p fileformat dstdir overwrite = Except.ok (st1, r) ∧
      handleFile parse fileformat dstdir overwrite st p = Except.ok (st1,
        [if r.is_success = true then OutLine.out p.name
         else OutLine.err ("***" ++ (match r.message with
           | some m => m
           | none => "None") ++ ": " ++ p.name)]) ∧
      (r.is_success = false → ∃ m, r.message = some m)) := by
  constructor
  · exact recurse_single_eq_processSeq parse fileformat dstdir overwrite
  · intro st p
    rcases convert_registered_total parse st p fileformat conversion dstdir
        overwrite hf with ⟨st1, r, heq, -, hcase⟩
    refine ⟨st1, r, heq, ?_, ?_⟩
    · unfold handleFile
      rw [heq]
      by_cases hs : r.is_success = true
      · simp [hs]
      · simp [hs]
    · intro hns
      rcases hcase with ⟨hsS, -, -, -⟩ | ⟨e, -, hmsg⟩ | ⟨-, hmsg, -, -⟩
      · rw [Result.is_success, hsS] at hns
        simp at hns
      · exact ⟨_, hmsg⟩
      · exact ⟨_, hmsg⟩

/-- Witness for C7 at a concrete input: a one-file tree whose single entry
matches the classifier. -/
theorem convert_recursive_one_line_per_match_witness :
    recurse_single parseFix "csv" none false stFix (Entry.file srcFix) =
      processSeq parseFix "csv" none false stFix
        (matchedFiles (Entry.file srcFix)) :=
  (convert_recursive_one_line_per_match parseFix "csv" CSVConversion none
    false rfl).1 stFix (Entry.file srcFix)

end DLCConvert
